import Mathlib

/-!
Verification of the cxn connectivity checker (Rust sources: src/check.rs,
src/dns.rs, src/ping.rs, src/config.rs, src/main.rs).

The pure data model and control flow are embedded shallowly:

* IP addresses keep only what the code inspects (the address family and an
  identity for equality), since the engine never looks inside an address.
* The resolver transport (hickory lookup_ip), the ping transport
  (surge_ping via ping::ping_host) and string-to-IP parsing
  (str::parse::<IpAddr>) are library collaborators: they enter the model
  as oracle functions collected in an Env record.  All theorems quantify
  over the oracle, so they hold for every resolver and pinger behaviour.
* Durations are nanosecond counts (Nat); Duration::saturating_sub is
  truncated Nat subtraction.
* The tokio JoinSet in run_parallel_checks completes tasks in a
  nondeterministic order; the stream of join_next outcomes is passed to
  the model as an explicit list (each element Except.ok payload for a
  normally completed task, Except.error for a panicked or cancelled one).
  Theorems quantify over every stream consistent with the spawned tasks.
-/

/-- Model of std::net::IpAddr: the engine only queries the family (is_ipv4)
and compares addresses; a Nat payload keeps distinct addresses distinct. -/
inductive IpAddr where
  | v4 (a : Nat)
  | v6 (a : Nat)
deriving DecidableEq, Repr

/-- IpAddr::is_ipv4. -/
def IpAddr.is_ipv4 : IpAddr → Bool
  | .v4 _ => true
  | .v6 _ => false

/-- The value of the literal 0.0.0.0 used by check_host for the synthetic
ping failure. -/
def zeroIp : IpAddr := IpAddr.v4 0

/-- dns.rs DnsResult: outcome of one DNS resolution. -/
structure DnsResult where
  name : String
  hostname : String
  success : Bool
  addresses : List IpAddr
  error : Option String
deriving DecidableEq, Repr

/-- dns.rs DnsResult::success. -/
def DnsResult.mkSuccess (name hostname : String) (addresses : List IpAddr) : DnsResult :=
  { name := name, hostname := hostname, success := true, addresses := addresses, error := none }

/-- dns.rs DnsResult::failure. -/
def DnsResult.mkFailure (name hostname error : String) : DnsResult :=
  { name := name, hostname := hostname, success := false, addresses := [], error := some error }

/-- The kinds of hickory_resolver::error::ResolveError distinguished by
format_dns_error. -/
inductive ResolveErrorKind where
  | noRecordsFound
  | timeout
  | ioError (msg : String)
  | other (msg : String)
deriving DecidableEq, Repr

/-- dns.rs format_dns_error. -/
def format_dns_error : ResolveErrorKind → String
  | .noRecordsFound => "no such host"
  | .timeout => "timeout"
  | .ioError msg => "io error: " ++ msg
  | .other msg => msg

/-- dns.rs resolve_dns.  The resolver transport response for the hostname
(resolver.lookup_ip) is passed in as lookup: either the list of addresses or
a resolution error.  The address-family filter and the empty-address check
follow the source line by line. -/
def resolve_dns (lookup : Except ResolveErrorKind (List IpAddr))
    (name hostname : String) (include_ipv6 : Bool) : DnsResult :=
  match lookup with
  | .error e => DnsResult.mkFailure name hostname (format_dns_error e)
  | .ok ips =>
    let addresses := ips.filter fun ip => ip.is_ipv4 || include_ipv6
    if addresses.isEmpty then
      DnsResult.mkFailure name hostname "no addresses found"
    else
      DnsResult.mkSuccess name hostname addresses

/-- ping.rs PingResult: outcome of one ping operation.  The round-trip time
is a nanosecond count. -/
structure PingResult where
  name : String
  address : IpAddr
  success : Bool
  rtt : Option Nat
  error : Option String
deriving DecidableEq, Repr

/-- ping.rs PingResult::success. -/
def PingResult.mkSuccess (name : String) (address : IpAddr) (rtt : Nat) : PingResult :=
  { name := name, address := address, success := true, rtt := some rtt, error := none }

/-- ping.rs PingResult::failure. -/
def PingResult.mkFailure (name : String) (address : IpAddr) (error : String) : PingResult :=
  { name := name, address := address, success := false, rtt := none, error := some error }

/-- config.rs HostConfig: one configured host. -/
structure HostConfig where
  name : String
  address : String
  ping : Bool
  dns : Bool
deriving DecidableEq, Repr

/-- config.rs HostConfig::is_ip_address; the library call
address.parse::<IpAddr>() is the oracle parseIp. -/
def HostConfig.is_ip_address (h : HostConfig) (parseIp : String → Option IpAddr) : Bool :=
  (parseIp h.address).isSome

/-- config.rs HostConfig::has_checks. -/
def HostConfig.has_checks (h : HostConfig) : Bool :=
  h.ping || h.dns

/-- config.rs HostConfig::should_resolve_dns. -/
def HostConfig.should_resolve_dns (h : HostConfig) (parseIp : String → Option IpAddr) : Bool :=
  h.dns && !(h.is_ip_address parseIp)

/-- The configuration fields the check engine reads: config.timeout
(milliseconds, check.rs run_all_checks), config.hosts() (the ordered host
list) and config.interval (the default watch interval in seconds, read by
main.rs resolve_watch_interval). -/
structure Config where
  timeout : Nat
  interval : Nat
  hosts : List HostConfig

/-- The library collaborators used by check_host, collected as oracles:
parseIp models str::parse::<IpAddr>, lookupIp models the hickory resolver
transport consumed by resolve_dns, and ping_host models ping.rs ping_host
(arguments: name, address, timeout, count). -/
structure Env where
  parseIp : String → Option IpAddr
  lookupIp : String → Except ResolveErrorKind (List IpAddr)
  ping_host : String → IpAddr → Nat → Nat → PingResult

/-- check.rs CheckResult: the per-host result, with each sub-result present
only when that check was performed. -/
structure CheckResult where
  name : String
  address : String
  dns : Option DnsResult
  ping : Option PingResult
deriving DecidableEq, Repr

/-- check.rs CheckResult::is_success: dns.is_none_or(success) and
ping.is_none_or(success); Option.all is exactly is_none_or. -/
def CheckResult.is_success (r : CheckResult) : Bool :=
  let dns_ok := r.dns.all fun x => x.success
  let ping_ok := r.ping.all fun x => x.success
  dns_ok && ping_ok

/-- check.rs check_host: the DNS-then-ping sequence for one host.  The
mutable locals dns_result, ping_result, resolved_ip of the source are
threaded explicitly; each branch mirrors the corresponding source branch. -/
def check_host (env : Env) (host : HostConfig) (timeout : Nat) : CheckResult :=
  let resolvedIp0 : Option IpAddr := env.parseIp host.address
  let step : Option DnsResult × Option IpAddr :=
    if host.should_resolve_dns env.parseIp then
      let result := resolve_dns (env.lookupIp host.address) host.name host.address true
      let resolvedIp1 :=
        if result.success && resolvedIp0.isNone then result.addresses.head? else resolvedIp0
      (some result, resolvedIp1)
    else if resolvedIp0.isNone && host.ping then
      let result := resolve_dns (env.lookupIp host.address) host.name host.address false
      let resolvedIp1 := if result.success then result.addresses.head? else resolvedIp0
      (none, resolvedIp1)
    else
      (none, resolvedIp0)
  let dns_result := step.1
  let ping_result :=
    if host.ping then
      match step.2 with
      | some ip => some (env.ping_host host.name ip timeout 1)
      | none => some (PingResult.mkFailure host.name zeroIp "could not resolve hostname")
    else
      none
  { name := host.name, address := host.address, dns := dns_result, ping := ping_result }

/-- check.rs run_sequential_checks: one check_host per host, in order. -/
def run_sequential_checks (env : Env) (config : Config) (timeout : Nat) : List CheckResult :=
  config.hosts.map fun host => check_host env host timeout

/-- The payloads of the tasks spawned by run_parallel_checks: each host is
tagged with its index at submission time and its task computes
(idx, check_host host). -/
def spawned_results (env : Env) (config : Config) (timeout : Nat) : List (Nat × CheckResult) :=
  config.hosts.enum.map fun p => (p.1, check_host env p.2 timeout)

/-- Model of tokio JoinError: a task ended by panic or cancellation
instead of returning its value. -/
inductive JoinError where
  | panicked
  | cancelled
deriving DecidableEq, Repr

/-- check.rs run_parallel_checks collection loop,
while let Some(Ok((idx, result))) = join_set.join_next(): values are pushed
until the stream ends or the first join error appears; a join error stops
the loop. -/
def collect_results : List (Except JoinError (Nat × CheckResult)) → List (Nat × CheckResult)
  | [] => []
  | .ok r :: rest => r :: collect_results rest
  | .error _ :: _ => []

/-- check.rs run_parallel_checks after spawning: the completion stream is
the sequence of join_next outcomes in completion order (a JoinSet yields
tasks as they finish, not in submission order); the collected pairs are
sorted by original index (sort_by_key, a stable sort modelled by
mergeSort) and the indices stripped. -/
def run_parallel_checks (completion : List (Except JoinError (Nat × CheckResult))) :
    List CheckResult :=
  ((collect_results completion).mergeSort fun a b => decide (a.1 ≤ b.1)).map Prod.snd

/-- check.rs run_all_checks: dispatch on the parallel flag (the completion
stream argument is consumed only in parallel mode). -/
def run_all_checks (env : Env) (config : Config) (parallel : Bool)
    (completion : List (Except JoinError (Nat × CheckResult))) : List CheckResult :=
  let timeout := config.timeout
  if parallel then run_parallel_checks completion
  else run_sequential_checks env config timeout

/-- main.rs cmd_check result loop: success_count is the number of results
whose is_success holds. -/
def success_count (results : List CheckResult) : Nat :=
  (results.filter fun r => r.is_success).length

/-- main.rs cmd_check summary: hosts_checked counts the hosts with at least
one check enabled. -/
def hosts_checked (hosts : List HostConfig) : Nat :=
  (hosts.filter fun h => h.has_checks).length

/-- main.rs resolve_watch_interval.  The parsed CXN_WATCH_INTERVAL
environment variable is the envInterval argument (None when unset or
unparsable); cli none means watch was not requested, cli some 0 means
watch was requested without an explicit value. -/
def resolve_watch_interval (cliValue : Option Nat) (envInterval : Option Nat)
    (config : Config) : Option Nat :=
  match cliValue with
  | none => none
  | some 0 => some (envInterval.getD config.interval)
  | some n => some n

/-- main.rs run_check_with_watch: the sleep before the next cycle is
interval_duration.saturating_sub(cycle_start.elapsed()), durations in
nanoseconds and the interval given in seconds. -/
def watch_remaining (intervalSecs elapsedNs : Nat) : Nat :=
  intervalSecs * 1000000000 - elapsedNs

/-- check.rs MAX_CONCURRENT_CHECKS. -/
def MAX_CONCURRENT_CHECKS : Nat := 20

/-- State of the parallel scheduler admission gate: hosts not yet admitted,
free semaphore permits, and probes currently holding a permit (a permit is
acquired before the task starts check_host and dropped when it finishes). -/
structure SchedState where
  pending : Nat
  available : Nat
  inflight : Nat
deriving DecidableEq, Repr

/-- Initial scheduler state for a host list of the given length: the
semaphore starts with MAX_CONCURRENT_CHECKS permits and nothing in flight. -/
def SchedState.init (hosts : Nat) : SchedState :=
  { pending := hosts, available := MAX_CONCURRENT_CHECKS, inflight := 0 }

/-- The two events of run_parallel_checks admission: acquire takes one
pending host and one free permit and puts the probe in flight
(semaphore.acquire_owned followed by join_set.spawn); complete ends one
in-flight probe and returns its permit (drop(permit)).  acquire is enabled
only when a permit is free, which is how the semaphore blocks the spawn
loop at saturation. -/
inductive SchedStep : SchedState → SchedState → Prop
  | acquire (p a f : Nat) :
      SchedStep { pending := p + 1, available := a + 1, inflight := f }
        { pending := p, available := a, inflight := f + 1 }
  | complete (p a f : Nat) :
      SchedStep { pending := p, available := a, inflight := f + 1 }
        { pending := p, available := a + 1, inflight := f }

/-- Reachability of scheduler states by any interleaving of the two
events. -/
def SchedReachable (s : SchedState) (t : SchedState) : Prop :=
  Relation.ReflTransGen SchedStep s t

/-- Claim C3: is_success holds exactly when every present optional
sub-result (DNS, ping) is individually successful; with both sub-results
absent the result is vacuously successful, and an absent sub-result never
contributes to success or failure. -/
theorem is_success_iff_present_subresults (r : CheckResult) :
    (r.is_success = true ↔
      ((∀ d ∈ r.dns, d.success = true) ∧ (∀ p ∈ r.ping, p.success = true))) ∧
    (∀ name address : String,
      (CheckResult.mk name address none none).is_success = true) := by
  constructor
  · obtain ⟨n, a, d, p⟩ := r
    cases d <;> cases p <;> simp [CheckResult.is_success]
  · intro name address
    rfl

/-- Claim C7: the sleep before the next watch cycle equals
max(0, interval - elapsed_since_cycle_start); with interval 5s a 2s cycle
sleeps exactly 3s and a 6s cycle sleeps 0 (clamped, never negative). -/
theorem watch_remaining_clamped :
    (∀ intervalSecs elapsedNs : Nat,
      (watch_remaining intervalSecs elapsedNs : Int) =
        max 0 ((intervalSecs : Int) * 1000000000 - (elapsedNs : Int))) ∧
    watch_remaining 5 2000000000 = 3000000000 ∧
    watch_remaining 5 6000000000 = 0 := by
  refine ⟨fun i e => ?_, by norm_num [watch_remaining], by norm_num [watch_remaining]⟩
  unfold watch_remaining
  omega

/-- Claim C8: the watch interval resolution precedence is an explicit CLI
value first, then the environment override, then the config default, and
watch is disabled when the CLI never requested it. -/
theorem resolve_watch_interval_precedence (envInterval : Option Nat) (config : Config) :
    (resolve_watch_interval none envInterval config = none) ∧
    (∀ n : Nat, resolve_watch_interval (some (n + 1)) envInterval config = some (n + 1)) ∧
    (∀ e : Nat, resolve_watch_interval (some 0) (some e) config = some e) ∧
    (resolve_watch_interval (some 0) none config = some config.interval) :=
  ⟨rfl, fun _ => rfl, fun _ => rfl, rfl⟩

/-- Claim C10: resolve_dns reports success exactly when its address list is
non-empty; an error-free lookup whose filtered address list is empty is a
failure with error message "no addresses found"; hence the first address of
a successful resolution always exists. -/
theorem resolve_dns_success_iff_nonempty
    (lookup : Except ResolveErrorKind (List IpAddr)) (name hostname : String)
    (include_ipv6 : Bool) :
    ((resolve_dns lookup name hostname include_ipv6).success =
      !(resolve_dns lookup name hostname include_ipv6).addresses.isEmpty) ∧
    (((resolve_dns lookup name hostname include_ipv6).addresses.head?).isSome =
      (resolve_dns lookup name hostname include_ipv6).success) ∧
    (∀ ips : List IpAddr,
      (resolve_dns (Except.ok ips) name hostname include_ipv6).error =
        if (ips.filter fun ip => ip.is_ipv4 || include_ipv6).isEmpty
        then some "no addresses found" else none) := by
  refine ⟨?_, ?_, ?_⟩
  · cases lookup with
    | error e => rfl
    | ok ips =>
      simp only [resolve_dns]
      cases hfil : ips.filter fun ip => ip.is_ipv4 || include_ipv6 with
      | nil => simp [hfil, DnsResult.mkFailure]
      | cons x xs => simp [hfil, DnsResult.mkSuccess]
  · cases lookup with
    | error e => rfl
    | ok ips =>
      simp only [resolve_dns]
      cases hfil : ips.filter fun ip => ip.is_ipv4 || include_ipv6 with
      | nil => simp [hfil, DnsResult.mkFailure]
      | cons x xs => simp [hfil, DnsResult.mkSuccess]
  · intro ips
    simp only [resolve_dns]
    cases hfil : ips.filter fun ip => ip.is_ipv4 || include_ipv6 with
    | nil => simp [hfil, DnsResult.mkFailure]
    | cons x xs => simp [hfil, DnsResult.mkSuccess]

/-- Claim C6: for a host with wantPing and without wantDns whose hostname
address fails internal resolution, check_host records no DNS outcome,
synthesizes the ping failure with message "could not resolve hostname",
and the outcome does not depend on the pinger (it is never invoked). -/
theorem unresolved_hostname_ping_failure (env : Env) (host : HostConfig) (timeout : Nat)
    (hping : host.ping = true) (hdns : host.dns = false)
    (hhostname : env.parseIp host.address = none)
    (hfail : (resolve_dns (env.lookupIp host.address) host.name host.address false).success
      = false) :
    (check_host env host timeout).dns = none ∧
    (check_host env host timeout).ping =
      some (PingResult.mkFailure host.name zeroIp "could not resolve hostname") ∧
    (∀ pg, check_host { env with ping_host := pg } host timeout =
      check_host env host timeout) := by
  unfold check_host
  simp [HostConfig.should_resolve_dns, HostConfig.is_ip_address, hhostname, hdns, hping, hfail]

/-- Permits and in-flight probes together always account for exactly the
semaphore capacity: admission moves one permit into a probe, completion
moves it back. -/
theorem sched_permit_conservation (n : Nat) (s : SchedState)
    (h : SchedReachable (SchedState.init n) s) :
    s.available + s.inflight = MAX_CONCURRENT_CHECKS := by
  induction h with
  | refl => rfl
  | tail _ step ih =>
    cases step with
    | acquire p a f => simp_all; omega
    | complete p a f => simp_all; omega

/-- Claim C9: in parallel mode, any host list (of any length, including
1000) and any interleaving of admissions and completions keeps at most
MAX_CONCURRENT_CHECKS = 20 probes simultaneously in flight: a permit is
acquired before a probe starts and released on its completion. -/
theorem inflight_le_max_concurrent (n : Nat) (s : SchedState)
    (h : SchedReachable (SchedState.init n) s) :
    s.inflight ≤ MAX_CONCURRENT_CHECKS := by
  have hc := sched_permit_conservation n s h
  omega

/-- Witness for claim C9: from the initial state of a 1000-host batch, one
admission is a reachable state, and its in-flight count obeys the cap. -/
theorem inflight_le_max_concurrent_witness :
    SchedReachable (SchedState.init 1000)
      { pending := 999, available := 19, inflight := 1 } ∧
    SchedState.inflight { pending := 999, available := 19, inflight := 1 } ≤
      MAX_CONCURRENT_CHECKS :=
  ⟨Relation.ReflTransGen.single (SchedStep.acquire 999 19 0),
    inflight_le_max_concurrent 1000 _
      (Relation.ReflTransGen.single (SchedStep.acquire 999 19 0))⟩

/-- Every index in an enumFrom starting at n is at least n. -/
theorem fst_le_of_mem_enumFrom {α : Type} :
    ∀ {l : List α} {n : Nat} {p : Nat × α}, p ∈ l.enumFrom n → n ≤ p.1 := by
  intro l
  induction l with
  | nil =>
    intro n p h
    simp at h
  | cons x xs ih =>
    intro n p h
    rw [List.enumFrom_cons, List.mem_cons] at h
    rcases h with h | h
    · simp [h]
    · exact Nat.le_of_succ_le (ih h)

/-- Indices in an enumFrom are strictly increasing. -/
theorem pairwise_fst_lt_enumFrom {α : Type} :
    ∀ (l : List α) (n : Nat),
      List.Pairwise (fun a b : Nat × α => a.1 < b.1) (l.enumFrom n)
  | [], _ => by simp
  | x :: xs, n => by
    rw [List.enumFrom_cons]
    refine List.Pairwise.cons ?_ (pairwise_fst_lt_enumFrom xs (n + 1))
    intro p hp
    exact Nat.lt_of_succ_le (fst_le_of_mem_enumFrom hp)

/-- The indices of the spawned tasks are strictly increasing in submission
order. -/
theorem spawned_results_pairwise (env : Env) (config : Config) (timeout : Nat) :
    List.Pairwise (fun a b : Nat × CheckResult => a.1 < b.1)
      (spawned_results env config timeout) := by
  unfold spawned_results
  rw [List.pairwise_map]
  exact pairwise_fst_lt_enumFrom config.hosts 0

/-- Stripping the submission-time indices from the spawned tasks gives the
sequential results. -/
theorem spawned_results_map_snd (env : Env) (config : Config) (timeout : Nat) :
    (spawned_results env config timeout).map Prod.snd =
      run_sequential_checks env config timeout := by
  unfold spawned_results run_sequential_checks
  rw [List.map_map]
  have h1 : ((fun p : Nat × CheckResult => p.2) ∘
      fun p : Nat × HostConfig => (p.1, check_host env p.2 timeout)) =
      (fun h => check_host env h timeout) ∘ fun p : Nat × HostConfig => p.2 := rfl
  rw [h1, ← List.map_map, List.enum_eq_enumFrom, List.enumFrom_map_snd]

/-- The strict index order on tagged results is vacuously antisymmetric. -/
instance : IsAntisymm (Nat × CheckResult) (fun a b => a.1 < b.1) :=
  ⟨fun _ _ h h' => absurd h' (Nat.lt_asymm h)⟩

/-- Any permutation of the spawned task list, sorted by submission index,
is the spawned task list itself: the indices are pairwise distinct, so the
stable sort restores submission order exactly. -/
theorem mergeSort_perm_spawned (env : Env) (config : Config) (timeout : Nat)
    (c : List (Nat × CheckResult))
    (hperm : c.Perm (spawned_results env config timeout)) :
    (c.mergeSort fun a b => decide (a.1 ≤ b.1)) = spawned_results env config timeout := by
  have hperm2 : (c.mergeSort fun a b => decide (a.1 ≤ b.1)).Perm
      (spawned_results env config timeout) :=
    (List.mergeSort_perm c _).trans hperm
  have hle : (c.mergeSort fun a b => decide (a.1 ≤ b.1)).Pairwise
      (fun a b : Nat × CheckResult => decide (a.1 ≤ b.1) = true) := by
    exact List.sorted_mergeSort
      (fun a b d hab hbd => by
        simp only [decide_eq_true_eq] at hab hbd ⊢
        exact Nat.le_trans hab hbd)
      (fun a b => by
        rcases Nat.le_total a.1 b.1 with h | h <;> simp [h])
      c
  have hnefst : (c.mergeSort fun a b => decide (a.1 ≤ b.1)).Pairwise
      (fun a b : Nat × CheckResult => a.1 ≠ b.1) := by
    rw [← List.pairwise_map (f := Prod.fst)]
    have hmapperm := hperm2.map Prod.fst
    have hnodup : ((spawned_results env config timeout).map Prod.fst).Nodup := by
      show List.Pairwise (fun a b => a ≠ b) _
      rw [List.pairwise_map]
      exact (spawned_results_pairwise env config timeout).imp Nat.ne_of_lt
    exact hmapperm.nodup_iff.mpr hnodup
  have hlt : (c.mergeSort fun a b => decide (a.1 ≤ b.1)).Pairwise
      (fun a b : Nat × CheckResult => a.1 < b.1) := by
    refine (hle.and hnefst).imp ?_
    intro a b hab
    exact Nat.lt_of_le_of_ne (by simpa using hab.1) hab.2
  exact List.eq_of_perm_of_sorted hperm2 hlt (spawned_results_pairwise env config timeout)

/-- The payload of one join_next outcome, when the task completed
normally. -/
def joinValue : Except JoinError (Nat × CheckResult) → Option (Nat × CheckResult)
  | .ok r => some r
  | .error _ => none

/-- When every task completes normally, the collection loop gathers every
payload of the stream. -/
theorem collect_results_eq_filterMap :
    ∀ {c : List (Except JoinError (Nat × CheckResult))},
      (∀ x ∈ c, ∃ r, x = Except.ok r) →
      collect_results c = c.filterMap joinValue
  | [], _ => rfl
  | x :: rest, h => by
    obtain ⟨r, rfl⟩ := h x (List.mem_cons_self x rest)
    rw [collect_results, List.filterMap_cons]
    simp only [joinValue]
    rw [collect_results_eq_filterMap fun y hy => h y (List.mem_cons_of_mem _ hy)]

/-- If the completion stream is the spawned tasks all completing normally,
in any order, the collected pairs are a permutation of the spawned task
list. -/
theorem collect_results_of_perm_ok (env : Env) (config : Config) (timeout : Nat)
    (completion : List (Except JoinError (Nat × CheckResult)))
    (h : completion.Perm ((spawned_results env config timeout).map Except.ok)) :
    (collect_results completion).Perm (spawned_results env config timeout) := by
  have hall : ∀ x ∈ completion, ∃ r, x = Except.ok r := by
    intro x hx
    have hx2 := h.mem_iff.mp hx
    rw [List.mem_map] at hx2
    obtain ⟨r, _, rfl⟩ := hx2
    exact ⟨r, rfl⟩
  rw [collect_results_eq_filterMap hall]
  have hfm := h.filterMap joinValue
  rw [List.filterMap_map] at hfm
  have hid : (joinValue ∘ Except.ok) = some := rfl
  rw [hid, List.filterMap_some] at hfm
  exact hfm

/-- Any completion order of normally finishing spawned tasks makes the
parallel run produce exactly the sequential output. -/
theorem run_parallel_restores_order (env : Env) (config : Config) (timeout : Nat)
    (completion : List (Except JoinError (Nat × CheckResult)))
    (h : completion.Perm ((spawned_results env config timeout).map Except.ok)) :
    run_parallel_checks completion = run_sequential_checks env config timeout := by
  unfold run_parallel_checks
  rw [mergeSort_perm_spawned env config timeout _
    (collect_results_of_perm_ok env config timeout completion h)]
  exact spawned_results_map_snd env config timeout

/-- Claim C1: both scheduler modes return exactly one result per input
host, with the result at index i produced from the host at index i,
regardless of the order in which the parallel probes complete. -/
theorem scheduler_one_result_per_host (env : Env) (config : Config)
    (completion : List (Except JoinError (Nat × CheckResult)))
    (h : completion.Perm ((spawned_results env config config.timeout).map Except.ok)) :
    (run_all_checks env config false completion).length = config.hosts.length ∧
    (run_all_checks env config true completion).length = config.hosts.length ∧
    (∀ i : Nat, (run_all_checks env config false completion)[i]? =
      (config.hosts[i]?).map fun host => check_host env host config.timeout) ∧
    (∀ i : Nat, (run_all_checks env config true completion)[i]? =
      (config.hosts[i]?).map fun host => check_host env host config.timeout) := by
  have hseq : run_all_checks env config false completion =
      config.hosts.map fun host => check_host env host config.timeout := rfl
  have hpar : run_all_checks env config true completion =
      config.hosts.map fun host => check_host env host config.timeout := by
    show run_parallel_checks completion = _
    rw [run_parallel_restores_order env config config.timeout completion h]
    rfl
  refine ⟨?_, ?_, ?_, ?_⟩
  · rw [hseq, List.length_map]
  · rw [hpar, List.length_map]
  · intro i
    rw [hseq, List.getElem?_map]
  · intro i
    rw [hpar, List.getElem?_map]

/-- Host fixture: a literal IPv4 address with only the ping check. -/
def hostA : HostConfig :=
  { name := "A", address := "8.8.8.8", ping := true, dns := true }

/-- Host fixture: a hostname whose resolution fails, with both checks. -/
def hostB : HostConfig :=
  { name := "B", address := "bad.invalid", ping := true, dns := true }

/-- Host fixture: a host with no checks enabled. -/
def hostNone : HostConfig :=
  { name := "N", address := "example.com", ping := false, dns := false }

/-- Oracle fixture: 8.8.8.8 parses as a literal IP, bad.invalid fails to
resolve, every other hostname resolves to one IPv4 and one IPv6 address,
and every ping answers with a 10ms round trip. -/
def testEnv : Env where
  parseIp s := if s = "8.8.8.8" then some (IpAddr.v4 8) else none
  lookupIp s :=
    if s = "bad.invalid" then Except.error ResolveErrorKind.noRecordsFound
    else Except.ok [IpAddr.v4 1, IpAddr.v6 2]
  ping_host n ip _ _ := PingResult.mkSuccess n ip 10000000

/-- Config fixture with two hosts. -/
def testConfig : Config :=
  { timeout := 1000, interval := 5, hosts := [hostA, hostB] }

/-- Witness for claim C1: with the two-host fixture and the completion
stream reversed relative to submission order, both modes still give one
result per host, in input order. -/
theorem scheduler_one_result_per_host_witness :
    (run_all_checks testEnv testConfig true
      (((spawned_results testEnv testConfig 1000).map Except.ok).reverse)).length = 2 ∧
    (run_all_checks testEnv testConfig true
      (((spawned_results testEnv testConfig 1000).map Except.ok).reverse))[0]? =
      some (check_host testEnv hostA 1000) := by
  have h := scheduler_one_result_per_host testEnv testConfig
    (((spawned_results testEnv testConfig 1000).map Except.ok).reverse)
    (List.reverse_perm _)
  refine ⟨?_, ?_⟩
  · rw [h.2.1]
    rfl
  · rw [h.2.2.2 0]
    rfl

/-- Claim C2: for every host list and every resolver and pinger behaviour,
parallel mode and sequential mode of run_all_checks return the same result
sequence, whatever the completion order of the parallel probes. -/
theorem parallel_mode_eq_sequential_mode (env : Env) (config : Config)
    (completion : List (Except JoinError (Nat × CheckResult)))
    (h : completion.Perm ((spawned_results env config config.timeout).map Except.ok)) :
    run_all_checks env config true completion = run_all_checks env config false completion := by
  show run_parallel_checks completion = run_sequential_checks env config config.timeout
  exact run_parallel_restores_order env config config.timeout completion h

/-- Witness for claim C2: the two-host fixture with a reversed completion
stream gives identical parallel and sequential outputs. -/
theorem parallel_mode_eq_sequential_mode_witness :
    run_all_checks testEnv testConfig true
        (((spawned_results testEnv testConfig 1000).map Except.ok).reverse) =
      run_all_checks testEnv testConfig false
        (((spawned_results testEnv testConfig 1000).map Except.ok).reverse) :=
  parallel_mode_eq_sequential_mode testEnv testConfig
    (((spawned_results testEnv testConfig 1000).map Except.ok).reverse)
    (List.reverse_perm _)

/-- Claim C4 counterexample: two hosts; the task of host B (index 1)
panics and its join error is yielded first, before the already-completed
result of host A.  The collection loop stops at the error, so the batch
returns no result at all: the non-faulting host A loses its result and the
faulting host does not degrade to a failed HostResult. -/
theorem panic_drops_other_results :
    run_parallel_checks
      [Except.error JoinError.panicked,
       Except.ok (0, check_host testEnv hostA 1000)] = [] ∧
    testConfig.hosts.length = 2 := by
  constructor
  · simp [run_parallel_checks, collect_results]
  · rfl

/-- The collection loop keeps exactly the payloads that joined before the
first join error. -/
theorem collect_results_until_error
    (pre : List (Nat × CheckResult)) (e : JoinError)
    (rest : List (Except JoinError (Nat × CheckResult))) :
    collect_results (pre.map Except.ok ++ Except.error e :: rest) = pre := by
  induction pre with
  | nil => rfl
  | cons x xs ih => rw [List.map_cons, List.cons_append, collect_results, ih]

/-- Claim C4 (amended): a panic inside one parallel unit of work is not
isolated: result collection stops at the first join error, the batch
returns only the results that joined before it (sorted by submission
index), the faulting host yields no HostResult, and every later completion
is dropped. -/
theorem collection_stops_at_first_join_error
    (pre : List (Nat × CheckResult)) (e : JoinError)
    (rest : List (Except JoinError (Nat × CheckResult))) :
    run_parallel_checks (pre.map Except.ok ++ Except.error e :: rest) =
      (pre.mergeSort fun a b => decide (a.1 ≤ b.1)).map Prod.snd := by
  unfold run_parallel_checks
  rw [collect_results_until_error]

/-- Config fixture with a single host that has no checks enabled. -/
def configNone : Config :=
  { timeout := 1000, interval := 5, hosts := [hostNone] }

/-- Claim C5 counterexample: a host with neither check enabled is excluded
from the denominator but still counted in the numerator: its vacuously
successful result makes success_count 1 while hosts_checked is 0. -/
theorem no_check_host_counted_in_numerator :
    success_count (run_sequential_checks testEnv configNone 1000) = 1 ∧
    hosts_checked configNone.hosts = 0 :=
  ⟨rfl, rfl⟩

/-- A host with no checks enabled yields a result with both sub-results
absent, which is vacuously successful. -/
theorem no_check_host_vacuous (env : Env) (h : HostConfig) (timeout : Nat)
    (hping : h.ping = false) (hdns : h.dns = false) :
    (check_host env h timeout).is_success = true := by
  unfold check_host
  simp [HostConfig.should_resolve_dns, hdns, hping, CheckResult.is_success]

/-- Claim C5 (amended): the aggregate denominator counts exactly the hosts
with at least one of wantPing and wantDns enabled, but the numerator counts
every result whose is_success holds, so a host with neither check enabled
is excluded from the denominator while still entering the numerator as a
vacuous success. -/
theorem no_check_host_tally (env : Env) (timeout interval : Nat)
    (h : HostConfig) (hosts : List HostConfig)
    (hping : h.ping = false) (hdns : h.dns = false) :
    hosts_checked (h :: hosts) = hosts_checked hosts ∧
    (∀ hs : List HostConfig,
      hosts_checked hs = hs.countP fun x => x.ping || x.dns) ∧
    success_count (run_sequential_checks env
        { timeout := timeout, interval := interval, hosts := h :: hosts } timeout) =
      success_count (run_sequential_checks env
        { timeout := timeout, interval := interval, hosts := hosts } timeout) + 1 := by
  refine ⟨?_, ?_, ?_⟩
  · simp [hosts_checked, HostConfig.has_checks, hping, hdns]
  · intro hs
    simp [hosts_checked, HostConfig.has_checks, List.countP_eq_length_filter]
  · simp [success_count, run_sequential_checks, List.filter_cons,
      no_check_host_vacuous env h timeout hping hdns]

/-- Witness for amended claim C5: prepending the no-check host to a
one-host list leaves the denominator unchanged and raises the numerator by
one. -/
theorem no_check_host_tally_witness :
    hosts_checked [hostNone, hostA] = hosts_checked [hostA] ∧
    success_count (run_sequential_checks testEnv
        { timeout := 1000, interval := 5, hosts := [hostNone, hostA] } 1000) =
      success_count (run_sequential_checks testEnv
        { timeout := 1000, interval := 5, hosts := [hostA] } 1000) + 1 := by
  have h := no_check_host_tally testEnv 1000 5 hostNone [hostA] rfl rfl
  exact ⟨h.1, h.2.2⟩

/-- Host fixture: an unresolvable hostname with ping requested and DNS not
requested. -/
def hostBNoDns : HostConfig :=
  { name := "B", address := "bad.invalid", ping := true, dns := false }

/-- Witness for claim C6: host B with ping only and a failing resolution
records no DNS outcome and the synthetic ping failure. -/
theorem unresolved_hostname_ping_failure_witness :
    (check_host testEnv hostBNoDns 1000).dns = none ∧
    (check_host testEnv hostBNoDns 1000).ping =
      some (PingResult.mkFailure "B" zeroIp "could not resolve hostname") := by
  have h := unresolved_hostname_ping_failure testEnv hostBNoDns 1000 rfl rfl rfl rfl
  exact ⟨h.1, h.2.1⟩
